import Mathlib

/-!
Verification of the `qd` extended-precision library excerpt
(double-double / quad-double arithmetic) against its specification.

The excerpt contains `src/double/trig/atan2.rs`, `src/double/util.rs`,
`src/double/iter.rs`, `src/quad/iter.rs` and `src/quad/display.rs`.
The core `Double`/`Quad` types, their arithmetic operators, predicates and
constants live outside the excerpt; where a claim needs them they are
modelled from the spec (each such definition says so in its doc comment).

Binary64 values are modelled symbolically: a value is NaN (with a sign),
an infinity (with a sign), or a finite value given by a sign bit and a
non-negative rational magnitude.  This captures the IEEE special-value
classes, signed zeros and sign bits exactly; finite arithmetic is exact
rational arithmetic (the spec's faithful rounding is not needed by any of
the claims, which only inspect special-value classes and branch structure).
-/

/-- Modelled from the spec: an IEEE-754 binary64 value, symbolically.
`fin s m` is the finite value of sign bit `s` (true = negative) and
magnitude `m` (so `fin false 0` is +0.0 and `fin true 0` is -0.0);
`inf s` is a signed infinity; `nan s` is a NaN with sign bit `s`. -/
inductive F64 where
  | nan (sign : Bool)
  | inf (sign : Bool)
  | fin (sign : Bool) (mag : ℚ)
deriving DecidableEq, Repr

namespace F64

/-- `f64::is_nan`. -/
def isNan : F64 → Bool
  | nan _ => true
  | _ => false

/-- `f64::is_infinite`. -/
def isInf : F64 → Bool
  | inf _ => true
  | _ => false

/-- A binary64 is zero when it is finite with magnitude 0 (either sign). -/
def isZero : F64 → Bool
  | fin _ m => m == 0
  | _ => false

/-- The sign bit (true = negative), defined for every class including NaN. -/
def signBit : F64 → Bool
  | nan s => s
  | inf s => s
  | fin s _ => s

/-- IEEE equality `==` on binary64: NaN compares unequal to everything
(itself included), +0.0 equals -0.0, and otherwise sign and magnitude
must agree. -/
def ieeeEq : F64 → F64 → Bool
  | nan _, _ => false
  | _, nan _ => false
  | inf s, inf t => s == t
  | inf _, fin _ _ => false
  | fin _ _, inf _ => false
  | fin s m, fin t n =>
      (if s then -m else m) == (if t then -n else n)

/-- IEEE negation: flip the sign bit, in every class. -/
def neg : F64 → F64
  | nan s => nan (!s)
  | inf s => inf (!s)
  | fin s m => fin (!s) m

/-- The signed rational value of a finite binary64 (0 for NaN/∞; the
claims only apply it to finite values). -/
def toRat : F64 → ℚ
  | fin s m => if s then -m else m
  | _ => 0

end F64

/-- The double-double type: an unevaluated sum of two binary64 components
`Double(hi, lo)`, `hi` the leading component (c₀ in the spec). -/
structure Double where
  hi : F64
  lo : F64
deriving DecidableEq, Repr

namespace Double

/-- Modelled from the spec: `Double::is_zero` is derived from c₀
(spec section 4.3: predicates are derived from c₀). -/
def is_zero (d : Double) : Bool := d.hi.isZero

/-- Modelled from the spec: `Double::is_sign_positive` is derived from the
sign bit of c₀. -/
def is_sign_positive (d : Double) : Bool := !d.hi.signBit

/-- Modelled from the spec: `Double::is_sign_negative` is derived from the
sign bit of c₀. -/
def is_sign_negative (d : Double) : Bool := d.hi.signBit

/-- Modelled from the spec: `Double::is_infinite` is derived from c₀. -/
def is_infinite (d : Double) : Bool := d.hi.isInf

/-- Modelled from the spec: `Double::is_finite` is derived from c₀. -/
def is_finite (d : Double) : Bool := !d.hi.isNan && !d.hi.isInf

/-- Modelled from the spec: `Double::is_nan` inspects all components to
catch NaN propagated into lower slots (spec section 4.3). -/
def is_nan (d : Double) : Bool := d.hi.isNan || d.lo.isNan

/-- Modelled from the spec: equality is componentwise IEEE equality
across both slots (spec section 4.3). -/
def beq (a b : Double) : Bool := F64.ieeeEq a.hi b.hi && F64.ieeeEq a.lo b.lo

/-- Modelled from the spec: negation flips the sign of every component
(spec section 4.3, subtraction). -/
def neg (d : Double) : Double := ⟨d.hi.neg, d.lo.neg⟩

/-- Modelled from the spec: `Double::ZERO` = (+0.0, +0.0). -/
def ZERO : Double := ⟨F64.fin false 0, F64.fin false 0⟩

/-- Modelled from the spec: negative zero has c₀ = -0.0 and the remaining
components +0.0 (spec section 3.1). -/
def NEG_ZERO : Double := ⟨F64.fin true 0, F64.fin false 0⟩

/-- Modelled from the spec: `Double::ONE`. -/
def ONE : Double := ⟨F64.fin false 1, F64.fin false 0⟩

/-- Modelled from the spec: `Double::NAN`, a positively signed NaN in the
leading component. -/
def NAN : Double := ⟨F64.nan false, F64.fin false 0⟩

/-- Modelled from the spec: `Double::INFINITY`. -/
def INFINITY : Double := ⟨F64.inf false, F64.fin false 0⟩

/-- Modelled from the spec: `Double::NEG_INFINITY`. -/
def NEG_INFINITY : Double := ⟨F64.inf true, F64.fin false 0⟩

/-- Modelled from the spec: the compile-time constant π.  The exact
binary64 components are outside the excerpt; the claims only use that it
is a distinguished finite positive non-zero constant, so the leading
component carries the binary64 value of π and the trailing one is 0. -/
def PI : Double := ⟨F64.fin false (884279719003555 / 281474976710656), F64.fin false 0⟩

/-- Modelled from the spec: the compile-time constant π/2. -/
def FRAC_PI_2 : Double := ⟨F64.fin false (884279719003555 / 562949953421312), F64.fin false 0⟩

/-- Modelled from the spec: the compile-time constant π/4. -/
def FRAC_PI_4 : Double := ⟨F64.fin false (884279719003555 / 1125899906842624), F64.fin false 0⟩

/-- Modelled from the spec: the compile-time constant 3π/4. -/
def FRAC_3_PI_4 : Double := ⟨F64.fin false (2652839157010665 / 1125899906842624), F64.fin false 0⟩

/-- `Double::atan2` from `src/double/trig/atan2.rs`, special-value branch
structure translated branch for branch.  The final `else` branch of the
source (the general case: Newton iteration seeded from hardware `atan2`,
using `sqrt`, `sin_cos` and division) is numerical code outside this
symbolic model and is rendered as `none`; every claim about `atan2`
concerns inputs that the source dispatches to one of the exact
special-value branches, all of which are translated here. -/
def atan2 (self other : Double) : Option Double :=
  if other.is_zero then
    if self.is_zero then some NAN
    else if self.is_sign_positive then some FRAC_PI_2
    else some FRAC_PI_2.neg
  else if self.is_zero then
    if other.is_sign_positive then some ZERO
    else some PI
  else if self.is_infinite then
    if other.is_infinite then some NAN
    else if self.is_sign_positive then some FRAC_PI_2
    else some FRAC_PI_2.neg
  else if other.is_infinite then
    some ZERO
  else if self.is_nan || other.is_nan then
    some NAN
  else if beq self other then
    if self.is_sign_positive then some FRAC_PI_4
    else some FRAC_3_PI_4.neg
  else if beq self other.neg then
    if self.is_sign_positive then some FRAC_3_PI_4
    else some FRAC_PI_4.neg
  else
    none

/-- A `Double` is positive when its leading component is a positive finite
non-zero value or +∞, and no component is NaN (the sign of the
represented real is the sign of c₀, spec section 3.1). -/
def isPositive (d : Double) : Prop :=
  ((∃ m : ℚ, d.hi = F64.fin false m ∧ 0 < m) ∨ d.hi = F64.inf false) ∧ is_nan d = false

/-- A `Double` is negative when its leading component is a negative finite
non-zero value or -∞, and no component is NaN. -/
def isNegative (d : Double) : Prop :=
  ((∃ m : ℚ, d.hi = F64.fin true m ∧ 0 < m) ∨ d.hi = F64.inf true) ∧ is_nan d = false

end Double

/-- Modelled from the spec: `Double::NEG_ONE`. -/
def Double.NEG_ONE : Double := ⟨F64.fin true 1, F64.fin false 0⟩

/-- The exact real value represented by a `Double`: the sum of its
components (spec section 3.1). -/
def Double.value (d : Double) : ℚ := d.hi.toRat + d.lo.toRat

/-- Modelled from the spec: double-double addition at the special-value
level (spec section 4.3): NaN in either operand gives NaN; +∞ + −∞ gives
NaN; ±∞ plus a finite value gives that ±∞; finite sums are modelled as
exact rational sums (the spec's EFT rounding is below the resolution any
claim needs). -/
def Double.add (a b : Double) : Double :=
  if a.is_nan || b.is_nan then NAN
  else match a.hi, b.hi with
    | F64.inf s, F64.inf t =>
        if s == t then ⟨F64.inf s, F64.fin false 0⟩ else NAN
    | F64.inf s, _ => ⟨F64.inf s, F64.fin false 0⟩
    | _, F64.inf t => ⟨F64.inf t, F64.fin false 0⟩
    | _, _ =>
        let q := a.value + b.value
        ⟨F64.fin (decide (q < 0)) |q|, F64.fin false 0⟩

/-- Modelled from the spec: double-double multiplication at the
special-value level (spec section 4.3): any NaN gives NaN; 0 × ±∞ gives
NaN; otherwise the sign follows the XOR of the operands' sign bits, an
infinite operand gives an infinity of that sign, and finite products are
modelled as exact rational products. -/
def Double.mul (a b : Double) : Double :=
  let s := xor a.hi.signBit b.hi.signBit
  if a.is_nan || b.is_nan then NAN
  else if a.is_infinite || b.is_infinite then
    if a.is_zero || b.is_zero then NAN
    else ⟨F64.inf s, F64.fin false 0⟩
  else ⟨F64.fin s |a.value * b.value|, F64.fin false 0⟩

/-- `Sum for Double` from `src/double/iter.rs`: the iterator (modelled as
a list) is folded over wide addition starting from `Double::ZERO`. -/
def Double.sum (l : List Double) : Double := l.foldl Double.add Double.ZERO

/-- `Product for Double` from `src/double/iter.rs`: the iterator (modelled
as a list) is folded over wide multiplication starting from
`Double::ONE`. -/
def Double.product (l : List Double) : Double := l.foldl Double.mul Double.ONE

/-- Modelled from the spec: sign-aware numeric comparison of two non-NaN
binary64 values: −∞ below every finite value, +∞ above, ±0 equal, finite
values by their signed value.  (NaN inputs never reach this function; the
caller returns unordered first.) -/
def F64.cmp : F64 → F64 → Ordering
  | inf s, inf t => if s == t then Ordering.eq else if s then Ordering.lt else Ordering.gt
  | inf s, _ => if s then Ordering.lt else Ordering.gt
  | _, inf t => if t then Ordering.gt else Ordering.lt
  | a, b => compare a.toRat b.toRat

/-- Modelled from the spec: `partial_cmp` yields unordered (`None`) if any
component of either operand is NaN, and otherwise orders lexicographically
over the component tuple by sign-aware numeric order — compare c₀, break
ties on c₁ (spec section 4.3). -/
def Double.partial_cmp (a b : Double) : Option Ordering :=
  if a.is_nan || b.is_nan then none
  else match F64.cmp a.hi b.hi with
    | Ordering.eq => some (F64.cmp a.lo b.lo)
    | o => some o

/-- `Double::min` from `src/double/util.rs`: the operand chosen by
`partial_cmp`; `None` (unordered) returns the second operand. -/
def Double.min (self other : Double) : Double :=
  match Double.partial_cmp self other with
  | some Ordering.lt | some Ordering.eq => self
  | some Ordering.gt => other
  | none => other

/-- `Double::max` from `src/double/util.rs`: the operand chosen by
`partial_cmp`; `None` (unordered) returns the second operand. -/
def Double.max (self other : Double) : Double :=
  match Double.partial_cmp self other with
  | some Ordering.lt | some Ordering.eq => other
  | some Ordering.gt => self
  | none => other

/-- The in-memory representation of a `Double`: the raw bit patterns of
its two binary64 fields (`w0` for field `.0`, `w1` for field `.1`), each
a 64-bit word.  The byte/bit constructors of `src/double/util.rs` are raw
transmutations on this representation and never inspect the words, so
this bit-level model is exact: every 128-bit pattern — canonical or not,
NaN payloads included — is representable. -/
structure DoubleBits where
  w0 : ℕ
  w1 : ℕ
deriving DecidableEq, Repr

/-- `Double::from_bits` from `src/double/util.rs`: raw transmutation from
`u128`, no validation or renormalization.  On a little-endian host field
`.0` occupies the low 64 bits of the `u128`. -/
def DoubleBits.from_bits (b : ℕ) : DoubleBits := ⟨b % 2 ^ 64, b / 2 ^ 64⟩

/-- `Double::to_bits` from `src/double/util.rs`: raw transmutation to
`u128`. -/
def DoubleBits.to_bits (d : DoubleBits) : ℕ := d.w0 + 2 ^ 64 * d.w1

/-- `u128::to_le_bytes`, little-endian digit expansion: `n` bytes, least
significant first. -/
def natToLeBytes : ℕ → ℕ → List ℕ
  | 0, _ => []
  | n + 1, b => b % 256 :: natToLeBytes n (b / 256)

/-- `u128::from_le_bytes`, little-endian recombination. -/
def natFromLeBytes : List ℕ → ℕ
  | [] => 0
  | x :: xs => x + 256 * natFromLeBytes xs

/-- `Double::to_le_bytes` from `src/double/util.rs`. -/
def DoubleBits.to_le_bytes (d : DoubleBits) : List ℕ :=
  natToLeBytes 16 d.to_bits

/-- `Double::to_be_bytes` from `src/double/util.rs`: big-endian is the
byte reversal of little-endian. -/
def DoubleBits.to_be_bytes (d : DoubleBits) : List ℕ :=
  (natToLeBytes 16 d.to_bits).reverse

/-- `Double::to_ne_bytes` from `src/double/util.rs`: native byte order,
modelled as little-endian (the roundtrip with `from_ne_bytes` is the same
for either native order since both sides use the same order). -/
def DoubleBits.to_ne_bytes (d : DoubleBits) : List ℕ := d.to_le_bytes

/-- `Double::from_le_bytes` from `src/double/util.rs`. -/
def DoubleBits.from_le_bytes (bs : List ℕ) : DoubleBits :=
  DoubleBits.from_bits (natFromLeBytes bs)

/-- `Double::from_be_bytes` from `src/double/util.rs`. -/
def DoubleBits.from_be_bytes (bs : List ℕ) : DoubleBits :=
  DoubleBits.from_bits (natFromLeBytes bs.reverse)

/-- `Double::from_ne_bytes` from `src/double/util.rs`: native byte order,
modelled as little-endian. -/
def DoubleBits.from_ne_bytes (bs : List ℕ) : DoubleBits :=
  DoubleBits.from_le_bytes bs

/-- The quad-double type: an unevaluated sum of four binary64 components
`Quad(c0, c1, c2, c3)`, `c0` the leading component. -/
structure Quad where
  c0 : F64
  c1 : F64
  c2 : F64
  c3 : F64
deriving DecidableEq, Repr

namespace Quad

/-- Modelled from the spec: `Quad::is_zero` is derived from c₀. -/
def is_zero (q : Quad) : Bool := q.c0.isZero

/-- Modelled from the spec: `Quad::is_infinite` is derived from c₀. -/
def is_infinite (q : Quad) : Bool := q.c0.isInf

/-- Modelled from the spec: `Quad::is_nan` inspects all components. -/
def is_nan (q : Quad) : Bool :=
  q.c0.isNan || q.c1.isNan || q.c2.isNan || q.c3.isNan

/-- A `Quad` whose leading component is the given binary64 and whose
trailing components are +0.0, mirroring the source constructor
`Quad(x, 0.0, 0.0, 0.0)`. -/
def ofF64 (x : F64) : Quad := ⟨x, F64.fin false 0, F64.fin false 0, F64.fin false 0⟩

/-- Modelled from the spec: `Quad::ZERO`. -/
def ZERO : Quad := ofF64 (F64.fin false 0)

/-- Modelled from the spec: `Quad::ONE`. -/
def ONE : Quad := ofF64 (F64.fin false 1)

/-- Modelled from the spec: `Quad::NAN`. -/
def NAN : Quad := ofF64 (F64.nan false)

/-- Modelled from the spec: `Quad::INFINITY`. -/
def INFINITY : Quad := ofF64 (F64.inf false)

/-- Modelled from the spec: `Quad::NEG_INFINITY`. -/
def NEG_INFINITY : Quad := ofF64 (F64.inf true)

/-- The exact real value represented by a `Quad`: the sum of its
components (spec section 3.1). -/
def value (q : Quad) : ℚ := q.c0.toRat + q.c1.toRat + q.c2.toRat + q.c3.toRat

/-- Modelled from the spec: quad-double addition at the special-value
level, same rules as double-double addition (spec section 4.3). -/
def add (a b : Quad) : Quad :=
  if a.is_nan || b.is_nan then NAN
  else match a.c0, b.c0 with
    | F64.inf s, F64.inf t => if s == t then ofF64 (F64.inf s) else NAN
    | F64.inf s, _ => ofF64 (F64.inf s)
    | _, F64.inf t => ofF64 (F64.inf t)
    | _, _ =>
        let q := a.value + b.value
        ofF64 (F64.fin (decide (q < 0)) |q|)

/-- Modelled from the spec: quad-double negation flips the sign of every
component. -/
def neg (a : Quad) : Quad := ⟨a.c0.neg, a.c1.neg, a.c2.neg, a.c3.neg⟩

/-- Modelled from the spec: subtraction is `a + (−b)` (spec section 4.3). -/
def sub (a b : Quad) : Quad := add a b.neg

/-- Modelled from the spec: quad-double multiplication at the
special-value level, same rules as double-double multiplication (spec
section 4.3): any NaN gives NaN; 0 × ±∞ gives NaN; the sign follows the
XOR of the operands' sign bits; an infinite operand gives an infinity of
that sign; finite products are modelled as exact rational products. -/
def mul (a b : Quad) : Quad :=
  let s := xor a.c0.signBit b.c0.signBit
  if a.is_nan || b.is_nan then NAN
  else if a.is_infinite || b.is_infinite then
    if a.is_zero || b.is_zero then NAN
    else ofF64 (F64.inf s)
  else ofF64 (F64.fin s |a.value * b.value|)

/-- Modelled from the spec: quad-double division at the special-value
level (spec section 4.3): NaN gives NaN; 0/0 gives NaN; division by zero
otherwise gives a sign-propagated infinity; ∞/∞ gives NaN; finite
quotients are modelled as exact rational quotients. -/
def div (a b : Quad) : Quad :=
  let s := xor a.c0.signBit b.c0.signBit
  if a.is_nan || b.is_nan then NAN
  else if b.is_zero then
    if a.is_zero then NAN else ofF64 (F64.inf s)
  else if a.is_infinite && b.is_infinite then NAN
  else if a.is_infinite then ofF64 (F64.inf s)
  else if b.is_infinite then ofF64 (F64.fin s 0)
  else ofF64 (F64.fin s |a.value / b.value|)

/-- Modelled from the spec: `Quad::powi`, an integer power computed in the
wide type itself (spec section 4.6 step 2 uses it to build the scaling
divisor `10^exp`).  Finite powers are modelled exactly. -/
def powi (a : Quad) (n : ℤ) : Quad :=
  if a.is_nan then NAN
  else ofF64 (F64.fin (decide (a.value ^ n < 0)) |a.value ^ n|)

/-- `Sum for Quad` from `src/quad/iter.rs`: the iterator (modelled as a
list) is folded over wide addition starting from `Quad::ZERO`. -/
def sum (l : List Quad) : Quad := l.foldl add ZERO

/-- `Product for Quad` from `src/quad/iter.rs`: the iterator (modelled as
a list) is folded over wide multiplication starting from `Quad::ONE`. -/
def product (l : List Quad) : Quad := l.foldl mul ONE

end Quad

/-- The constant `TEN` of `src/quad/display.rs`: `Quad(10.0, 0.0, 0.0, 0.0)`. -/
def TEN : Quad := Quad.ofF64 (F64.fin false 10)

/-- The constant `MAX_ACCURACY` of `src/quad/display.rs`. -/
def MAX_ACCURACY : ℕ := 62

/-- Modelled from the spec: `libm::trunc` on a binary64: rounds toward
zero; NaN and infinities pass through. -/
def F64.trunc : F64 → F64
  | F64.nan s => F64.nan s
  | F64.inf s => F64.inf s
  | F64.fin s m => F64.fin s ((⌊|m|⌋ : ℤ) : ℚ)

/-- Modelled from the spec: the Rust `as u8` cast on a binary64: a
saturating conversion, with NaN mapped to 0. -/
def F64.toU8 : F64 → ℕ
  | F64.nan _ => 0
  | F64.inf s => if s then 0 else 255
  | F64.fin s m => if s then 0 else min 255 (Int.toNat ⌊m⌋)

/-- The digit-extraction loop of `extract_digits` in
`src/quad/display.rs`: each iteration truncates the leading component,
subtracts the truncated digit (as `Quad(digit, 0, 0, 0)`), multiplies by
`TEN`, and records the digit cast to `u8`. -/
def extractLoop : ℕ → Quad → List ℕ
  | 0, _ => []
  | n + 1, value =>
      let digit := value.c0.trunc
      let value' := Quad.mul (Quad.sub value (Quad.ofF64 digit)) TEN
      digit.toU8 :: extractLoop n value'

/-- One carry step of decimal rounding, least-significant digit first: add
one to the head, propagating the carry; a carry out of the end of the
list is dropped, so the length is preserved. -/
def incLe : List ℕ → List ℕ
  | [] => []
  | d :: ds => if d + 1 ≤ 9 then (d + 1) :: ds else 0 :: incLe ds

/-- Modelled from the spec: `common::display::round_and_trunc` is outside
the excerpt; per spec section 4.6 step 4 it rounds the digit vector at
position `n` and truncates it to `n` digits: the digit at position `n`
(the extra digit produced for rounding) decides a half-up rounding whose
carry propagates through the kept prefix. -/
def round_and_trunc (digits : List ℕ) (n : ℕ) : List ℕ :=
  let kept := digits.take n
  if 5 ≤ digits.getD n 0 then (incLe kept.reverse).reverse else kept

/-- `extract_digits` from `src/quad/display.rs`: scale by `TEN.powi(exp)`,
extract `MAX_ACCURACY + 1` digits by repeated truncate-and-multiply-by-ten
in the `Quad` type, then round-and-truncate at
`(324 + exp).min(MAX_ACCURACY) as usize` positions.  The `as usize` cast
is modelled as `Int.toNat`, exact for `exp ≥ -324`; the caller's
`exp = floor(log10(|c0|))` is at least -324 for every positive finite
binary64. -/
def extract_digits (value : Quad) (exp : ℤ) : List ℕ :=
  let divisor := Quad.powi TEN exp
  let scaled := Quad.div value divisor
  let digits := extractLoop (MAX_ACCURACY + 1) scaled
  round_and_trunc digits (Int.toNat (min (324 + exp) (MAX_ACCURACY : ℤ)))

lemma Double.isPositive_not_zero {d : Double} (h : d.isPositive) :
    d.is_zero = false := by
  rcases h with ⟨h | h, -⟩
  · rcases h with ⟨m, hm, hpos⟩
    simp [Double.is_zero, hm, F64.isZero, ne_of_gt hpos]
  · simp [Double.is_zero, h, F64.isZero]

lemma Double.isPositive_sign_pos {d : Double} (h : d.isPositive) :
    d.is_sign_positive = true := by
  rcases h with ⟨h | h, -⟩
  · rcases h with ⟨m, hm, -⟩
    simp [Double.is_sign_positive, hm, F64.signBit]
  · simp [Double.is_sign_positive, h, F64.signBit]

lemma Double.isNegative_not_zero {d : Double} (h : d.isNegative) :
    d.is_zero = false := by
  rcases h with ⟨h | h, -⟩
  · rcases h with ⟨m, hm, hpos⟩
    simp [Double.is_zero, hm, F64.isZero, ne_of_gt hpos]
  · simp [Double.is_zero, h, F64.isZero]

lemma Double.isNegative_sign_neg {d : Double} (h : d.isNegative) :
    d.is_sign_positive = false := by
  rcases h with ⟨h | h, -⟩
  · rcases h with ⟨m, hm, -⟩
    simp [Double.is_sign_positive, hm, F64.signBit]
  · simp [Double.is_sign_positive, h, F64.signBit]

lemma Double.is_finite_not_infinite {d : Double} (h : d.is_finite = true) :
    d.is_infinite = false := by
  cases hd : d.hi <;>
    simp [Double.is_finite, Double.is_infinite, hd, F64.isNan, F64.isInf] at h ⊢

/-- C1 (counterexample): the claim "NaN in either argument implies `atan2`
returns NaN" is false on the code: at y = `Double::NAN`, x =
`Double::INFINITY` the `other.is_infinite()` branch fires before the NaN
check and the source returns `Double::ZERO`, which is not NaN. -/
theorem atan2_nan_claim_false :
    ¬ (∀ y x : Double, (y.is_nan || x.is_nan) = true →
        ∀ r : Double, Double.atan2 y x = some r → r.is_nan = true) := by
  intro h
  have h1 := h Double.NAN Double.INFINITY (by decide) Double.ZERO (by decide)
  simp [Double.is_nan, Double.ZERO, F64.isNan] at h1

/-- C1 (amended): if either argument of `Double::atan2` is NaN, the result
is NaN provided neither argument is zero or infinite in its leading
component — those branches of the source are tested first and preempt the
NaN check. -/
theorem atan2_nan_inputs (y x : Double)
    (h : (y.is_nan || x.is_nan) = true)
    (hxz : x.is_zero = false) (hyz : y.is_zero = false)
    (hyi : y.is_infinite = false) (hxi : x.is_infinite = false) :
    Double.atan2 y x = some Double.NAN := by
  simp [Double.atan2, h, hxz, hyz, hyi, hxi]

/-- Witness for C1 (amended) at y = `Double::NAN`, x = `Double::ONE`. -/
theorem atan2_nan_inputs_witness :
    (Double.NAN.is_nan || Double.ONE.is_nan) = true ∧
    Double.atan2 Double.NAN Double.ONE = some Double.NAN :=
  ⟨by decide,
   atan2_nan_inputs Double.NAN Double.ONE (by decide) (by decide) (by decide)
     (by decide) (by decide)⟩

/-- C2: the exact axis cases of `Double::atan2`: both arguments zero gives
NaN; x zero and y positive gives π/2; x zero and y negative gives −π/2;
y zero and x positive gives 0; y zero and x negative gives π. -/
theorem atan2_axes (y x : Double) :
    (x.is_zero = true → y.is_zero = true → Double.atan2 y x = some Double.NAN) ∧
    (x.is_zero = true → y.isPositive → Double.atan2 y x = some Double.FRAC_PI_2) ∧
    (x.is_zero = true → y.isNegative → Double.atan2 y x = some Double.FRAC_PI_2.neg) ∧
    (y.is_zero = true → x.isPositive → Double.atan2 y x = some Double.ZERO) ∧
    (y.is_zero = true → x.isNegative → Double.atan2 y x = some Double.PI) := by
  refine ⟨?_, ?_, ?_, ?_, ?_⟩
  · intro hx hy; simp [Double.atan2, hx, hy]
  · intro hx hy
    simp [Double.atan2, hx, Double.isPositive_not_zero hy, Double.isPositive_sign_pos hy]
  · intro hx hy
    simp [Double.atan2, hx, Double.isNegative_not_zero hy, Double.isNegative_sign_neg hy]
  · intro hy hx
    simp [Double.atan2, hy, Double.isPositive_not_zero hx, Double.isPositive_sign_pos hx]
  · intro hy hx
    simp [Double.atan2, hy, Double.isNegative_not_zero hx, Double.isNegative_sign_neg hx]

lemma Double.one_isPositive : Double.ONE.isPositive :=
  ⟨Or.inl ⟨1, rfl, one_pos⟩, by decide⟩

lemma Double.neg_one_isNegative : Double.NEG_ONE.isNegative :=
  ⟨Or.inl ⟨1, rfl, one_pos⟩, by decide⟩

/-- Witness for C2 at concrete axis inputs. -/
theorem atan2_axes_witness :
    Double.atan2 Double.ZERO Double.ZERO = some Double.NAN ∧
    Double.atan2 Double.ONE Double.ZERO = some Double.FRAC_PI_2 ∧
    Double.atan2 Double.NEG_ONE Double.ZERO = some Double.FRAC_PI_2.neg ∧
    Double.atan2 Double.ZERO Double.ONE = some Double.ZERO ∧
    Double.atan2 Double.ZERO Double.NEG_ONE = some Double.PI :=
  ⟨(atan2_axes Double.ZERO Double.ZERO).1 (by decide) (by decide),
   (atan2_axes Double.ONE Double.ZERO).2.1 (by decide) Double.one_isPositive,
   (atan2_axes Double.NEG_ONE Double.ZERO).2.2.1 (by decide) Double.neg_one_isNegative,
   (atan2_axes Double.ZERO Double.ONE).2.2.2.1 (by decide) Double.one_isPositive,
   (atan2_axes Double.ZERO Double.NEG_ONE).2.2.2.2 (by decide) Double.neg_one_isNegative⟩

/-- C3: for a finite non-zero non-NaN y, `Double::atan2` with x = ±∞
returns exactly `Double::ZERO`, regardless of the sign of x: the
`other.is_infinite()` branch of the source returns `Double::ZERO`
unconditionally (departing from IEEE-754 `atan2(y, −∞) = ±π`). -/
theorem atan2_x_infinite (y : Double)
    (hf : y.is_finite = true) (hz : y.is_zero = false) (hn : y.is_nan = false) :
    Double.atan2 y Double.INFINITY = some Double.ZERO ∧
    Double.atan2 y Double.NEG_INFINITY = some Double.ZERO := by
  have hyi := Double.is_finite_not_infinite hf
  have h1 : Double.INFINITY.is_zero = false := by decide
  have h2 : Double.NEG_INFINITY.is_zero = false := by decide
  have h3 : Double.INFINITY.is_infinite = true := by decide
  have h4 : Double.NEG_INFINITY.is_infinite = true := by decide
  constructor <;> simp [Double.atan2, hz, hyi, h1, h2, h3, h4]

/-- Witness for C3 at y = `Double::ONE`. -/
theorem atan2_x_infinite_witness :
    Double.atan2 Double.ONE Double.INFINITY = some Double.ZERO ∧
    Double.atan2 Double.ONE Double.NEG_INFINITY = some Double.ZERO :=
  atan2_x_infinite Double.ONE (by decide) (by decide) (by decide)

/-- C9: `Double::atan2` does not distinguish the sign of a zero argument:
the zero branches test `is_zero`, which accepts both zero signs.  So
`atan2(-0.0, x)` agrees with `atan2(+0.0, x)` for every x (0 for positive
x, π for negative x — never −π), and `atan2(y, -0.0)` agrees with
`atan2(y, +0.0)` for every y. -/
theorem atan2_signed_zero (x y : Double) :
    Double.atan2 Double.NEG_ZERO x = Double.atan2 Double.ZERO x ∧
    (x.isPositive → Double.atan2 Double.NEG_ZERO x = some Double.ZERO) ∧
    (x.isNegative → Double.atan2 Double.NEG_ZERO x = some Double.PI) ∧
    Double.atan2 y Double.NEG_ZERO = Double.atan2 y Double.ZERO := by
  have hnz : Double.NEG_ZERO.is_zero = true := by decide
  have hz : Double.ZERO.is_zero = true := by decide
  refine ⟨?_, ?_, ?_, ?_⟩
  · by_cases h : x.is_zero = true
    · simp [Double.atan2, h, hnz, hz]
    · simp only [Bool.not_eq_true] at h
      simp [Double.atan2, h, hnz, hz]
  · intro hx
    simp [Double.atan2, Double.isPositive_not_zero hx, hnz, Double.isPositive_sign_pos hx]
  · intro hx
    simp [Double.atan2, Double.isNegative_not_zero hx, hnz, Double.isNegative_sign_neg hx]
  · simp [Double.atan2, hnz, hz]

/-- Witness for C9 at x = ±`Double::ONE`, y = `Double::ONE`. -/
theorem atan2_signed_zero_witness :
    Double.atan2 Double.NEG_ZERO Double.ONE = some Double.ZERO ∧
    Double.atan2 Double.NEG_ZERO Double.NEG_ONE = some Double.PI ∧
    Double.atan2 Double.ONE Double.NEG_ZERO = Double.atan2 Double.ONE Double.ZERO :=
  ⟨(atan2_signed_zero Double.ONE Double.ONE).2.1 Double.one_isPositive,
   (atan2_signed_zero Double.NEG_ONE Double.ONE).2.2.1 Double.neg_one_isNegative,
   (atan2_signed_zero Double.ONE Double.ONE).2.2.2⟩

/-- C4: summing an empty iterator of `Double`s or `Quad`s returns the
identity `ZERO`, and an empty product returns `ONE`: the reductions are
folds over wide + and * starting from the identities. -/
theorem sum_product_empty :
    Double.sum [] = Double.ZERO ∧ Double.product [] = Double.ONE ∧
    Quad.sum [] = Quad.ZERO ∧ Quad.product [] = Quad.ONE :=
  ⟨rfl, rfl, rfl, rfl⟩

/-- C5: the product of the iterator `[+∞, −∞]` (in that order) is −∞, not
NaN, for both `Double` and `Quad`: the fold computes `(1 × +∞) × −∞`, and
the sign rule (XOR of the operands' sign bits) gives −∞. -/
theorem product_of_pos_neg_infinity :
    Double.product [Double.INFINITY, Double.NEG_INFINITY] = Double.NEG_INFINITY ∧
    (Double.product [Double.INFINITY, Double.NEG_INFINITY]).is_nan = false ∧
    Quad.product [Quad.INFINITY, Quad.NEG_INFINITY] = Quad.NEG_INFINITY ∧
    (Quad.product [Quad.INFINITY, Quad.NEG_INFINITY]).is_nan = false := by
  decide

/-- C6: when `partial_cmp` is unordered (`None`, i.e. some component is
NaN), both `Double::min` and `Double::max` return the second operand. -/
theorem min_max_unordered (a b : Double)
    (h : Double.partial_cmp a b = none) :
    Double.min a b = b ∧ Double.max a b = b := by
  simp [Double.min, Double.max, h]

/-- Witness for C6 at a = `Double::NAN`, b = `Double::ONE`. -/
theorem min_max_unordered_witness :
    Double.partial_cmp Double.NAN Double.ONE = none ∧
    (Double.min Double.NAN Double.ONE = Double.ONE ∧
     Double.max Double.NAN Double.ONE = Double.ONE) :=
  ⟨by decide, min_max_unordered Double.NAN Double.ONE (by decide)⟩

lemma natFromLeBytes_natToLeBytes (n : ℕ) :
    ∀ b : ℕ, natFromLeBytes (natToLeBytes n b) = b % 256 ^ n := by
  induction n with
  | zero => intro b; simp [natToLeBytes, natFromLeBytes, Nat.mod_one]
  | succ n ih =>
      intro b
      rw [natToLeBytes, natFromLeBytes, ih, pow_succ', Nat.mod_mul]

lemma to_bits_from_bits (b : ℕ) : (DoubleBits.from_bits b).to_bits = b := by
  simp [DoubleBits.from_bits, DoubleBits.to_bits, Nat.mod_add_div]

lemma from_bits_to_bits (d : DoubleBits) (h0 : d.w0 < 2 ^ 64) :
    DoubleBits.from_bits d.to_bits = d := by
  cases d with
  | mk w0 w1 =>
      simp only [DoubleBits.from_bits, DoubleBits.to_bits, DoubleBits.mk.injEq]
      constructor
      · rw [Nat.add_mul_mod_self_left]
        exact Nat.mod_eq_of_lt h0
      · rw [Nat.add_mul_div_left _ _ (by norm_num : (0:ℕ) < 2 ^ 64),
          Nat.div_eq_of_lt h0, Nat.zero_add]

lemma to_bits_lt (d : DoubleBits) (h0 : d.w0 < 2 ^ 64) (h1 : d.w1 < 2 ^ 64) :
    d.to_bits < 2 ^ 128 := by
  have e : (2:ℕ) ^ 64 = 18446744073709551616 := by norm_num
  simp only [DoubleBits.to_bits, e] at h0 h1 ⊢
  omega

/-- C10: the bit constructors of `src/double/util.rs` are raw
transmutations with no validation or renormalization: `to_bits ∘
from_bits` is the identity on every 128-bit value — including bit patterns
that violate the non-overlap and magnitude-ordering invariants — and
`from_bits ∘ to_bits` is the identity on every representation. -/
theorem from_bits_to_bits_roundtrip (b : ℕ) (d : DoubleBits)
    (hb : b < 2 ^ 128) (h0 : d.w0 < 2 ^ 64) (h1 : d.w1 < 2 ^ 64) :
    (DoubleBits.from_bits b).to_bits = b ∧
    DoubleBits.from_bits d.to_bits = d :=
  ⟨to_bits_from_bits b, from_bits_to_bits d h0⟩

/-- Witness for C10: the 128-bit pattern of two equal binary64 words
violates the magnitude-ordering invariant, and still round-trips. -/
theorem from_bits_to_bits_roundtrip_witness :
    (12345678901234567890123456789 : ℕ) < 2 ^ 128 ∧
    (DoubleBits.from_bits 12345678901234567890123456789).to_bits =
      12345678901234567890123456789 ∧
    DoubleBits.from_bits (DoubleBits.to_bits ⟨4611686018427387904, 4611686018427387904⟩) =
      ⟨4611686018427387904, 4611686018427387904⟩ :=
  ⟨by decide,
   (from_bits_to_bits_roundtrip 12345678901234567890123456789
      ⟨4611686018427387904, 4611686018427387904⟩ (by decide) (by decide) (by decide)).1,
   (from_bits_to_bits_roundtrip 12345678901234567890123456789
      ⟨4611686018427387904, 4611686018427387904⟩ (by decide) (by decide) (by decide)).2⟩

/-- C7: the byte constructors of `src/double/util.rs` round-trip
bit-exactly: `from_ne_bytes(v.to_ne_bytes()) = v` for every representable
bit pattern, and likewise for the big-endian and little-endian pairs.
Because the statement quantifies over every pair of 64-bit words, it
covers all finite values and also every NaN bit pattern, so NaN payload
bits are preserved. -/
theorem bytes_roundtrip (d : DoubleBits)
    (h0 : d.w0 < 2 ^ 64) (h1 : d.w1 < 2 ^ 64) :
    DoubleBits.from_ne_bytes d.to_ne_bytes = d ∧
    DoubleBits.from_le_bytes d.to_le_bytes = d ∧
    DoubleBits.from_be_bytes d.to_be_bytes = d := by
  have key : natFromLeBytes (natToLeBytes 16 d.to_bits) = d.to_bits := by
    rw [natFromLeBytes_natToLeBytes]
    have e : (256:ℕ) ^ 16 = 2 ^ 128 := by norm_num
    rw [e]
    exact Nat.mod_eq_of_lt (to_bits_lt d h0 h1)
  have hle : DoubleBits.from_le_bytes d.to_le_bytes = d := by
    rw [DoubleBits.from_le_bytes, DoubleBits.to_le_bytes, key, from_bits_to_bits d h0]
  refine ⟨hle, hle, ?_⟩
  rw [DoubleBits.from_be_bytes, DoubleBits.to_be_bytes, List.reverse_reverse, key,
    from_bits_to_bits d h0]

/-- Witness for C7 at the representation whose leading word is a
signaling-NaN bit pattern with payload 1 (0x7FF0000000000001), checking
that NaN payload bits survive the byte round-trip. -/
theorem bytes_roundtrip_witness :
    (9218868437227405313 : ℕ) < 2 ^ 64 ∧
    DoubleBits.from_ne_bytes (DoubleBits.to_ne_bytes ⟨9218868437227405313, 1⟩) =
      ⟨9218868437227405313, 1⟩ ∧
    DoubleBits.from_be_bytes (DoubleBits.to_be_bytes ⟨9218868437227405313, 1⟩) =
      ⟨9218868437227405313, 1⟩ :=
  ⟨by decide,
   (bytes_roundtrip ⟨9218868437227405313, 1⟩ (by decide) (by decide)).1,
   (bytes_roundtrip ⟨9218868437227405313, 1⟩ (by decide) (by decide)).2.2⟩

lemma extractLoop_length (n : ℕ) : ∀ v : Quad, (extractLoop n v).length = n := by
  induction n with
  | zero => intro v; rfl
  | succ n ih => intro v; simp [extractLoop, ih]

lemma incLe_length (l : List ℕ) : (incLe l).length = l.length := by
  induction l with
  | nil => rfl
  | cons d ds ih => by_cases h : d + 1 ≤ 9 <;> simp [incLe, h, ih]

lemma round_and_trunc_length (ds : List ℕ) (n : ℕ) :
    (round_and_trunc ds n).length = min n ds.length := by
  unfold round_and_trunc
  split <;> simp [incLe_length, List.length_take]

/-- C8: `extract_digits` in `src/quad/display.rs` produces
`MAX_ACCURACY + 1 = 63` digits by repeated truncate-and-multiply-by-ten
in the `Quad` type, then rounds and truncates the digit vector to
`min(MAX_ACCURACY, 324 + exp)` positions, with `MAX_ACCURACY = 62` (the
caller passes `exp = floor(log10(|c0|))`, which is at least −324 for
every positive finite binary64). -/
theorem extract_digits_structure (v : Quad) (exp : ℤ) (h : -324 ≤ exp) :
    (extractLoop (MAX_ACCURACY + 1) (Quad.div v (Quad.powi TEN exp))).length = 63 ∧
    extract_digits v exp =
      round_and_trunc (extractLoop (MAX_ACCURACY + 1) (Quad.div v (Quad.powi TEN exp)))
        (Int.toNat (min (324 + exp) (MAX_ACCURACY : ℤ))) ∧
    (extract_digits v exp).length = Int.toNat (min (324 + exp) (MAX_ACCURACY : ℤ)) ∧
    MAX_ACCURACY = 62 := by
  refine ⟨?_, rfl, ?_, rfl⟩
  · rw [extractLoop_length]; decide
  · unfold extract_digits
    rw [round_and_trunc_length, extractLoop_length]
    simp only [MAX_ACCURACY]
    omega

/-- Witness for C8 at value `Quad::ONE`, exponent 0: the digit vector is
truncated to min(62, 324) = 62 positions. -/
theorem extract_digits_structure_witness :
    (-324 : ℤ) ≤ 0 ∧
    (extract_digits Quad.ONE 0).length = Int.toNat (min (324 + 0) (MAX_ACCURACY : ℤ)) ∧
    (extractLoop (MAX_ACCURACY + 1) (Quad.div Quad.ONE (Quad.powi TEN 0))).length = 63 :=
  ⟨by norm_num,
   (extract_digits_structure Quad.ONE 0 (by norm_num)).2.2.1,
   (extract_digits_structure Quad.ONE 0 (by norm_num)).1⟩
